import Mathlib

/-!
Verification of the Fashion Studio ETL pipeline core.

This file is a shallow embedding, in Lean 4, of the decision logic of the
pipeline: the card parser and pagination driver (`utils/extract.py`), the
per-field normalizers and the record validator (`utils/transform.py`), and
the append-mode combination step of the sink (`utils/load.py`).

Modelling conventions:
- Python strings are Lean `String`; a possibly-`None` string argument is
  `Option String`.
- Python floats produced by the normalizers are modelled exactly as
  rationals (`ℚ`).  Every numeric value manufactured by the pipeline is a
  decimal literal scraped from text, possibly multiplied by the integer
  currency rate, so exact rational arithmetic captures the intended values.
  Rational results are constructed with `Rat.divInt` in already-normalized
  form (so that concrete runs reduce by `decide`); bridging lemmas prove
  these forms equal to the direct `intPart + fracPart / 10 ^ k` arithmetic.
- `pandas.DataFrame` columns are modelled as lists of records; `dropna`,
  boolean-mask filtering, `drop_duplicates` and `reset_index` become the
  corresponding list operations.
- Network and file I/O are external collaborators: the fetch collaborator
  is a function from page index to `Option String` (content or failure),
  and the HTML→card step of BeautifulSoup is abstracted by a `Card`
  structure holding the texts the parser actually reads.
-/

namespace FashionStudio

/-! ## String primitives (Python semantics, ASCII fragment) -/

/-- Whitespace characters stripped by Python `str.strip` (ASCII range). -/
def pyWS (c : Char) : Bool :=
  c == ' ' || c == '\t' || c == '\n' || c == '\r' || c == '\x0b' || c == '\x0c'

/-- Python `str.strip` on a character list: drop whitespace at both ends. -/
def trimChars (l : List Char) : List Char :=
  ((l.dropWhile pyWS).reverse.dropWhile pyWS).reverse

/-- Python `str.strip`. -/
def pyStrip (s : String) : String :=
  String.mk (trimChars s.data)

/-- ASCII lowercase conversion of one character (Python `str.lower`). -/
def lowerChar (c : Char) : Char :=
  if 'A' ≤ c && c ≤ 'Z' then Char.ofNat (c.toNat + 32) else c

/-- ASCII uppercase conversion of one character (Python `str.upper`). -/
def upperChar (c : Char) : Char :=
  if 'a' ≤ c && c ≤ 'z' then Char.ofNat (c.toNat - 32) else c

/-- Python `str.lower` (ASCII fragment). -/
def pyLower (s : String) : String :=
  String.mk (s.data.map lowerChar)

/-- Python `str.upper` (ASCII fragment). -/
def pyUpper (s : String) : String :=
  String.mk (s.data.map upperChar)

/-- Python `str.startswith`. -/
def pyStartsWith (s pre : String) : Bool :=
  pre.data.isPrefixOf s.data

/-- Python substring containment (`pat in s`). -/
def pyContains (s pat : String) : Bool :=
  s.data.tails.any fun t => pat.data.isPrefixOf t

/-- One fuel-indexed pass of Python `str.replace`: at each position, if the
pattern occurs, emit the replacement and skip the pattern, else copy one
character.  The fuel is an upper bound on the input length, so the function
is structurally recursive (and hence evaluates inside the kernel). -/
def replaceAllGo (pat rep : List Char) : Nat → List Char → List Char
  | 0, l => l
  | _ + 1, [] => []
  | fuel + 1, c :: cs =>
      if pat.isPrefixOf (c :: cs) then
        rep ++ replaceAllGo pat rep fuel ((c :: cs).drop pat.length)
      else
        c :: replaceAllGo pat rep fuel cs

/-- Python `str.replace s pat rep` (all occurrences, left to right).  Only
ever used with nonempty patterns in this development. -/
def pyReplace (s pat rep : String) : String :=
  if pat.data.isEmpty then s
  else String.mk (replaceAllGo pat.data rep.data s.data.length s.data)

/-- ASCII digit test (the regex class `\d` as used on the scraped text). -/
def isDigitChar (c : Char) : Bool :=
  '0' ≤ c && c ≤ '9'

/-- Numeric value of a list of ASCII digits. -/
def digitsToNat (l : List Char) : Nat :=
  l.foldl (fun a c => a * 10 + (c.toNat - 48)) 0

/-- Powers of ten, structurally recursive so concrete runs reduce. -/
def pow10 : Nat → Nat
  | 0 => 1
  | n + 1 => 10 * pow10 n

/-! ## Exact decimal values

`decimalValue ip fp` is the exact value of the decimal numeral whose
integer digits are `ip` and fractional digits are `fp` (Python
`float("ip.fp")`, idealized to the exact rational).  `decimalTimesRate`
additionally multiplies by a natural-number rate.  Both are produced with
`Rat.divInt` so they normalize during kernel evaluation. -/

def decimalValue (ip fp : List Char) : ℚ :=
  Rat.divInt (Int.ofNat (digitsToNat ip * pow10 fp.length + digitsToNat fp))
    (Int.ofNat (pow10 fp.length))

def decimalTimesRate (ip fp : List Char) (rate : Nat) : ℚ :=
  Rat.divInt
    (Int.ofNat ((digitsToNat ip * pow10 fp.length + digitsToNat fp) * rate))
    (Int.ofNat (pow10 fp.length))

/-! ## Field normalizers (`utils/transform.py`) -/

/-- Exchange rate USD to IDR (`USD_TO_IDR_RATE = 16000`). -/
def USD_TO_IDR_RATE : Nat := 16000

/-- Scan for the first match of the regex `[\d,]+\.?\d*` in a comma-free
character list: find the first digit, take the maximal digit run, then an
optional decimal point followed by a maximal digit run.  Returns the
integer-part digits and the fractional-part digits of the matched token.
(Since the scanned text is comma-free, the class `[\d,]` is just `\d`; the
greedy quantifiers have no backtracking interplay because the character
classes involved are disjoint.) -/
def priceScan : List Char → Option (List Char × List Char)
  | [] => none
  | c :: cs =>
      if isDigitChar c then
        let ip := (c :: cs).takeWhile isDigitChar
        let rest := (c :: cs).dropWhile isDigitChar
        match rest with
        | '.' :: r2 => some (ip, r2.takeWhile isDigitChar)
        | _ => some (ip, [])
      else
        priceScan cs

/-- `clean_price` from `utils/transform.py`: `None` or `""` or the sentinel
`"Price Unavailable"` gives `0.0`; otherwise commas are removed, the first
`[\d,]+\.?\d*` token is extracted and its value is multiplied by
`USD_TO_IDR_RATE`; if no token is found the result is `0.0`. -/
def clean_price (price_str : Option String) : ℚ :=
  match price_str with
  | none => 0
  | some s =>
      if s = "" || s = "Price Unavailable" then 0
      else
        match priceScan (s.data.filter (fun c => c ≠ ',')) with
        | some (ip, fp) => decimalTimesRate ip fp USD_TO_IDR_RATE
        | none => 0

/-- Check that the list starts with `\s*/\s*\d+` (the tail of the rating
regex after the captured score). -/
def slashScaleAhead (l : List Char) : Bool :=
  match l.dropWhile pyWS with
  | '/' :: r =>
      match r.dropWhile pyWS with
      | d :: _ => isDigitChar d
      | [] => false
  | _ => false

/-- Scan for the first match of `(\d+\.?\d*)\s*/\s*(\d+)` and return the
digits of the captured score (integer part, fractional part).  At each
starting digit the score digits are read greedily; if the `/ scale` tail is
not ahead the scan restarts one character later, reproducing the leftmost
search of `re.search`. -/
def ratingScan : List Char → Option (List Char × List Char)
  | [] => none
  | c :: cs =>
      if isDigitChar c then
        let ip := (c :: cs).takeWhile isDigitChar
        let rest := (c :: cs).dropWhile isDigitChar
        let (fp, rest2) :=
          match rest with
          | '.' :: r => (r.takeWhile isDigitChar, r.dropWhile isDigitChar)
          | _ => ([], rest)
        if slashScaleAhead rest2 then some (ip, fp) else ratingScan cs
      else
        ratingScan cs

/-- `clean_rating` from `utils/transform.py`: `None`, `""` or `"Not Rated"`
gives `None`; a string containing the substring `"Invalid Rating"` gives
`None`; otherwise the score of the first `(\d+\.?\d*)\s*/\s*(\d+)` match is
returned, and `None` if there is no match. -/
def clean_rating (rating_str : Option String) : Option ℚ :=
  match rating_str with
  | none => none
  | some s =>
      if s = "" || s = "Not Rated" then none
      else if pyContains s "Invalid Rating" then none
      else
        match ratingScan s.data with
        | some (ip, fp) => some (decimalValue ip fp)
        | none => none

/-- Digit run of a Python integer literal body: digits optionally separated
by single underscores (`int("1_000") = 1000`), accumulated into `acc`. -/
def pyIntDigits (acc : Nat) : List Char → Option Nat
  | [] => some acc
  | '_' :: c :: rest =>
      if isDigitChar c then pyIntDigits (acc * 10 + (c.toNat - 48)) rest
      else none
  | '_' :: [] => none
  | c :: rest =>
      if isDigitChar c then pyIntDigits (acc * 10 + (c.toNat - 48)) rest
      else none

/-- Parse a nonempty unsigned digit body. -/
def pyIntBody (l : List Char) : Option Nat :=
  match l with
  | c :: rest =>
      if isDigitChar c then pyIntDigits (c.toNat - 48) rest else none
  | [] => none

/-- Python `int(s)` on the ASCII fragment: strip whitespace, optional sign,
then a nonempty digit body; anything else raises `ValueError`, modelled as
`none`. -/
def pyIntParse (s : String) : Option Int :=
  match trimChars s.data with
  | '+' :: rest => (pyIntBody rest).map Int.ofNat
  | '-' :: rest => (pyIntBody rest).map (fun n => -(n : Int))
  | rest => (pyIntBody rest).map Int.ofNat

/-- `clean_colors` from `utils/transform.py`: `None` or `""` gives `None`;
otherwise `int(colors_str)`, with a parse failure giving `None`. -/
def clean_colors (colors_str : Option String) : Option Int :=
  match colors_str with
  | none => none
  | some s => if s = "" then none else pyIntParse s

/-- The fixed size enumeration of `standardize_size` (the mapping is the
identity on these keys). -/
def sizeKeys : List String := ["XS", "S", "M", "L", "XL", "XXL"]

/-- `standardize_size` from `utils/transform.py`: `None`, `""` or the
sentinel `"Unknown"` gives `None`; otherwise uppercase and strip, then look
up in the fixed size table, `None` on a miss. -/
def standardize_size (size_str : Option String) : Option String :=
  match size_str with
  | none => none
  | some s =>
      if s = "" || s = "Unknown" then none
      else
        let clean_size := pyStrip (pyUpper s)
        if clean_size ∈ sizeKeys then some clean_size else none

/-- The gender table of `standardize_gender`. -/
def genderTable : List (String × String) :=
  [("MEN", "Men"), ("WOMEN", "Women"), ("UNISEX", "Unisex")]

/-- `standardize_gender` from `utils/transform.py`: `None`, `""` or the
sentinel `"Unknown"` gives `None`; otherwise uppercase and strip, then look
up in the gender table, `None` on a miss. -/
def standardize_gender (gender_str : Option String) : Option String :=
  match gender_str with
  | none => none
  | some s =>
      if s = "" || s = "Unknown" then none
      else
        let clean_gender := pyStrip (pyUpper s)
        (genderTable.lookup clean_gender)

/-- `is_valid_title` from `utils/transform.py`: false for `None` or `""`,
and false when the lowercased, stripped title is one of
`["unknown product", "unknown", ""]`. -/
def is_valid_title (title : Option String) : Bool :=
  match title with
  | none => false
  | some t =>
      if t = "" then false
      else !(["unknown product", "unknown", ""].contains (pyStrip (pyLower t)))

/-! ## Records and the validator pipeline (`transform_fashion_data`) -/

/-- A raw record as handed to the transform stage: one dictionary of the
`raw_data` list, with string values that may be absent (`None`). -/
structure RawProduct where
  title : Option String
  price : Option String
  rating : Option String
  colors : Option String
  size : Option String
  gender : Option String
  timestamp : Option String
  deriving DecidableEq, Repr

/-- A row of the transformed dataframe: title and timestamp carried through,
the other fields typed by the normalizers.  `price` is a total numeric
column (`clean_price` never yields a missing value), the rest are
nullable. -/
structure CleanRecord where
  title : Option String
  price : ℚ
  rating : Option ℚ
  colors : Option Int
  size : Option String
  gender : Option String
  timestamp : Option String
  deriving DecidableEq, Repr

/-- The five per-field `apply` calls of `transform_fashion_data` (lines
167–171): normalize price, rating, colors, size and gender; title and
timestamp columns are untouched. -/
def normalizeRecord (r : RawProduct) : CleanRecord where
  title := r.title
  price := clean_price r.price
  rating := clean_rating r.rating
  colors := clean_colors r.colors
  size := standardize_size r.size
  gender := standardize_gender r.gender
  timestamp := r.timestamp

/-- The `dropna(subset=[title, price, rating, colors, size, gender])` mask:
a row survives when none of the critical fields is missing.  The `price`
column is produced by the total function `clean_price` and can never hold a
missing value, so only the nullable columns are tested. -/
def noAbsentFields (r : CleanRecord) : Bool :=
  r.title.isSome && r.rating.isSome && r.colors.isSome &&
    r.size.isSome && r.gender.isSome

/-- The composite dedup key `(title, price, size, gender)` shared by the
transform-stage and append-stage deduplications. -/
def dedupKey (r : CleanRecord) : Option String × ℚ × Option String × Option String :=
  (r.title, r.price, r.size, r.gender)

/-- `drop_duplicates(subset=key, keep='first')`: keep a row exactly when no
earlier row has the same key, preserving order.  Implemented with an
accumulator of already-seen keys so that the recursion is structural. -/
def dedupKeepFirstGo {α κ : Type} [DecidableEq κ] (key : α → κ) :
    List κ → List α → List α
  | _, [] => []
  | seen, x :: xs =>
      if key x ∈ seen then dedupKeepFirstGo key seen xs
      else x :: dedupKeepFirstGo key (key x :: seen) xs

/-- `drop_duplicates(subset=key, keep='first')` on a list. -/
def dedupKeepFirst {α κ : Type} [DecidableEq κ] (key : α → κ) (l : List α) :
    List α :=
  dedupKeepFirstGo key [] l

/-- `drop_duplicates(subset=key, keep='last')`: keep a row exactly when no
later row has the same key, preserving order (`utils/load.py`, append
path). -/
def dedupKeepLast {α κ : Type} [DecidableEq κ] (key : α → κ) :
    List α → List α
  | [] => []
  | x :: xs =>
      if xs.any (fun y => decide (key y = key x)) then dedupKeepLast key xs
      else x :: dedupKeepLast key xs

/-- `transform_fashion_data` from `utils/transform.py`: empty input short
circuits to an empty dataframe; otherwise apply the five normalizers,
filter on title validity, drop rows with missing critical fields, drop
rows with non-positive price, deduplicate on `(title, price, size, gender)`
keeping the first occurrence, and reset the index (the identity on an
order-preserving list model). -/
def transform_fashion_data (raw_data : List RawProduct) : List CleanRecord :=
  if raw_data = [] then []
  else
    let df1 := raw_data.map normalizeRecord
    let df2 := df1.filter (fun r => is_valid_title r.title)
    let df3 := df2.filter (fun r => noAbsentFields r)
    let df4 := df3.filter (fun r => decide (0 < r.price))
    let df5 := dedupKeepFirst dedupKey df4
    df5

/-! ## Append-mode combination (`utils/load.py`) -/

/-- The in-memory combination step of `append_to_csv` when the target file
already holds data (lines 119–133 of `utils/load.py`): concatenate the
existing rows with the new rows (`pd.concat`, `ignore_index=True`) and
deduplicate on `(title, price, size, gender)` keeping the last occurrence.
Reading and writing the CSV file are external I/O and are not modelled. -/
def append_to_csv (existing_df df : List CleanRecord) : List CleanRecord :=
  dedupKeepLast dedupKey (existing_df ++ df)

/-! ## Card parser (`utils/extract.py`, `parse_product_data`) -/

/-- A raw record as produced by the card parser: all seven keys present,
with string values (sentinel strings stand in for missing source data). -/
structure ExtractedProduct where
  title : String
  price : String
  rating : String
  colors : String
  size : String
  gender : String
  timestamp : String
  deriving DecidableEq, Repr

/-- One catalog card, as seen through BeautifulSoup: the text of the
`h3.product-title` element if present, the text of the `span.price` element
if present, and the texts of the `p` detail elements (those styled with
`font-size: 14px`) in document order.  The HTML→element selection itself is
BeautifulSoup's and is the abstraction boundary of this embedding. -/
structure Card where
  titleText : Option String
  priceText : Option String
  detailTexts : List String
  deriving DecidableEq, Repr

/-- The four descriptor fields accumulated by the detail-line scan. -/
structure DescFields where
  rating : String
  colors : String
  size : String
  gender : String
  deriving DecidableEq, Repr

/-- The sentinel initialization of the descriptor fields (lines 74–77). -/
def descInit : DescFields :=
  { rating := "Not Rated", colors := "0", size := "Unknown", gender := "Unknown" }

/-- Scan for the first match of the regex `(\d+)\s+Colors`: a maximal digit
run, at least one whitespace character, then the literal `Colors`; the
captured digits are returned as text. -/
def colorsScan : List Char → Option (List Char)
  | [] => none
  | c :: cs =>
      if isDigitChar c then
        let ds := (c :: cs).takeWhile isDigitChar
        let r1 := (c :: cs).dropWhile isDigitChar
        let r2 := r1.dropWhile pyWS
        if r1.takeWhile pyWS ≠ [] && "Colors".data.isPrefixOf r2 then some ds
        else colorsScan cs
      else
        colorsScan cs

/-- One iteration of the detail-paragraph loop (lines 79–89): the stripped
text is matched against, in order, the `Rating:` start, a `Colors`
substring, the `Size:` start and the `Gender:` start; a line matching none
of these leaves the fields unchanged. -/
def descStep (st : DescFields) (line : String) : DescFields :=
  let text := pyStrip line
  if pyStartsWith text "Rating:" then
    { st with rating := pyStrip (pyReplace text "Rating: " "") }
  else if pyContains text "Colors" then
    { st with colors :=
        match colorsScan text.data with
        | some ds => String.mk ds
        | none => "0" }
  else if pyStartsWith text "Size:" then
    { st with size := pyStrip (pyReplace text "Size: " "") }
  else if pyStartsWith text "Gender:" then
    { st with gender := pyStrip (pyReplace text "Gender: " "") }
  else st

/-- Parse one card (the body of the `for card in product_cards` loop):
title and price from their elements with sentinel fallbacks, the four
descriptor fields from the detail-line scan, and the caller-supplied
timestamp. -/
def parseCard (timestamp : String) (card : Card) : ExtractedProduct :=
  let desc := card.detailTexts.foldl descStep descInit
  { title :=
      match card.titleText with
      | some t => pyStrip t
      | none => "Unknown"
    price :=
      match card.priceText with
      | some t => pyStrip t
      | none => "Price Unavailable"
    rating := desc.rating
    colors := desc.colors
    size := desc.size
    gender := desc.gender
    timestamp := timestamp }

/-- `parse_product_data` from `utils/extract.py`, at the card level: one
record per card, in card order. -/
def parse_product_data (cards : List Card) (timestamp : String) :
    List ExtractedProduct :=
  cards.map (parseCard timestamp)

/-! ## Pagination driver (`utils/extract.py`, `extract_fashion_data`) -/

/-- The page loop of `extract_fashion_data`, over the remaining page
indices.  Per page: a failed fetch (`None`, or empty content — Python's
`if not html_content`) is skipped; a successful fetch whose parse yields no
records terminates the whole loop, discarding no already-accumulated
records; otherwise the page's records are appended and the loop continues.
The fetch collaborator is a function from page index to content-or-failure
and the per-page parse (`parse_product_data` at the run's timestamp) is a
function from content to records. -/
def extractLoop (fetch : Nat → Option String)
    (parse : String → List ExtractedProduct) : List Nat → List ExtractedProduct
  | [] => []
  | p :: rest =>
      match fetch p with
      | none => extractLoop fetch parse rest
      | some html =>
          if html = "" then extractLoop fetch parse rest
          else
            let page_products := parse html
            if page_products = [] then []
            else page_products ++ extractLoop fetch parse rest

/-- `extract_fashion_data` from `utils/extract.py`: drive the page loop
over page indices `1 .. max_pages` in order.  (URL construction, logging
and the politeness delay are plumbing; the fetch collaborator is keyed
directly by page index.) -/
def extract_fashion_data (fetch : Nat → Option String)
    (parse : String → List ExtractedProduct) (max_pages : Nat) :
    List ExtractedProduct :=
  extractLoop fetch parse (List.range' 1 max_pages)

/-- The records a single page contributes when it does not terminate the
loop: none on fetch failure, its parsed records otherwise. -/
def pageRecords (fetch : Nat → Option String)
    (parse : String → List ExtractedProduct) (p : Nat) : List ExtractedProduct :=
  match fetch p with
  | none => []
  | some html => if html = "" then [] else parse html

/-- Whether page `p` terminates the pagination loop: its fetch succeeded
with nonempty content and the parse produced no records. -/
def stopsAt (fetch : Nat → Option String)
    (parse : String → List ExtractedProduct) (p : Nat) : Bool :=
  match fetch p with
  | none => false
  | some html => !(html = "") && decide (parse html = [])

/-! ## Predicates and fixtures used in the statements -/

/-- The conditions actually tested by the detail-line loop, in source
order: a `Rating:` start (no trailing space required), a `Colors`
substring, a `Size:` start, a `Gender:` start. -/
def codeLineMatch (t : String) : Bool :=
  pyStartsWith t "Rating:" || pyContains t "Colors" ||
    pyStartsWith t "Size:" || pyStartsWith t "Gender:"

/-- Modelled from the spec: the four descriptor-line patterns §4.1 of the
specification names — a line starting with `"Rating: "` (with the space),
the pattern `"<integer> Colors"`, a line starting with `"Size: "`, a line
starting with `"Gender: "`.  Used to compare the spec's notion of a
non-matching line with the code's. -/
def specLineMatch (t : String) : Bool :=
  pyStartsWith t "Rating: " || (colorsScan t.data).isSome ||
    pyStartsWith t "Size: " || pyStartsWith t "Gender: "

/-- A fully populated raw record with price `"$25.99"` (the end-to-end
duplicate example). -/
def sampleRaw : RawProduct :=
  { title := some "T-shirt 1", price := some "$25.99",
    rating := some "⭐ 4.5 / 5", colors := some "3", size := some "M",
    gender := some "Women", timestamp := some "2025-06-15 10:00:00" }

/-- The clean record that `sampleRaw` normalizes to:
`25.99 × 16000 = 415840` IDR, rating `4.5`, three colors. -/
def sampleClean : CleanRecord :=
  { title := some "T-shirt 1", price := 415840,
    rating := some (decimalValue "4".data "5".data), colors := some 3,
    size := some "M", gender := some "Women",
    timestamp := some "2025-06-15 10:00:00" }

/-- A raw record with a valid title but every other field left at its
extraction sentinel. -/
def sentinelTitled (ts : Option String) : RawProduct :=
  { title := some "Classic Shirt", price := some "Price Unavailable",
    rating := some "Not Rated", colors := some "0", size := some "Unknown",
    gender := some "Unknown", timestamp := ts }

/-- An existing-data row colliding on `(title, price, size, gender)` with
`collideNew` but differing elsewhere. -/
def collideOld : CleanRecord :=
  { title := some "Jacket 3", price := 80000, rating := some 3,
    colors := some 1, size := some "L", gender := some "Men",
    timestamp := some "old run" }

/-- The newly appended row for the same composite key as `collideOld`. -/
def collideNew : CleanRecord :=
  { title := some "Jacket 3", price := 80000, rating := some 5,
    colors := some 4, size := some "L", gender := some "Men",
    timestamp := some "new run" }

/-- A fetch collaborator for a ten-page run whose page 3 yields content
that parses to zero cards. -/
def stopFetch : Nat → Option String := fun p =>
  if p = 1 then some "page one"
  else if p = 2 then some "page two"
  else if p = 3 then some "no cards"
  else some "page later"

/-- The same collaborator cut off after page 3: pages 4 and beyond fail. -/
def stopFetchCut : Nat → Option String := fun p =>
  if p ≤ 3 then stopFetch p else none

/-- A per-page parse producing one card-parsed record per nonempty page
and none for the `"no cards"` page. -/
def stopParse : String → List ExtractedProduct := fun html =>
  if html = "no cards" then []
  else [parseCard "run ts" { titleText := some html, priceText := none, detailTexts := [] }]

/-- A card with no title element, no price element and no descriptor
block. -/
def emptyCard : Card :=
  { titleText := none, priceText := none, detailTexts := [] }

/-- Whether a stripped detail line takes the rating branch. -/
def hitsRating (line : String) : Bool :=
  pyStartsWith (pyStrip line) "Rating:"

/-- Whether a stripped detail line takes the colors branch. -/
def hitsColors (line : String) : Bool :=
  !hitsRating line && pyContains (pyStrip line) "Colors"

/-- Whether a stripped detail line takes the size branch. -/
def hitsSize (line : String) : Bool :=
  !hitsRating line && !pyContains (pyStrip line) "Colors" &&
    pyStartsWith (pyStrip line) "Size:"

/-- Whether a stripped detail line takes the gender branch. -/
def hitsGender (line : String) : Bool :=
  !hitsRating line && !pyContains (pyStrip line) "Colors" &&
    !pyStartsWith (pyStrip line) "Size:" && pyStartsWith (pyStrip line) "Gender:"

/-! ## Numeric value lemmas -/

theorem pow10_cast_eq (n : Nat) : ((pow10 n : Nat) : ℚ) = 10 ^ n := by
  induction n with
  | zero => simp [pow10]
  | succ k ih => push_cast [pow10, pow_succ]; push_cast at ih; rw [ih]; ring

theorem decimalValue_eq (ip fp : List Char) :
    decimalValue ip fp
      = (digitsToNat ip : ℚ) + (digitsToNat fp : ℚ) / 10 ^ fp.length := by
  have h10 : ((pow10 fp.length : Nat) : ℚ) ≠ 0 := by
    rw [pow10_cast_eq]; positivity
  rw [decimalValue, Rat.divInt_eq_div]
  simp only [Int.ofNat_eq_coe]
  push_cast
  rw [pow10_cast_eq] at h10 ⊢
  field_simp

theorem decimalTimesRate_eq (ip fp : List Char) (rate : Nat) :
    decimalTimesRate ip fp rate = decimalValue ip fp * rate := by
  have h10 : ((pow10 fp.length : Nat) : ℚ) ≠ 0 := by
    rw [pow10_cast_eq]; positivity
  rw [decimalTimesRate, decimalValue, Rat.divInt_eq_div, Rat.divInt_eq_div]
  simp only [Int.ofNat_eq_coe]
  push_cast
  field_simp

theorem decimalValue_nonneg (ip fp : List Char) : 0 ≤ decimalValue ip fp := by
  rw [decimalValue_eq]; positivity

theorem decimalTimesRate_nonneg (ip fp : List Char) (rate : Nat) :
    0 ≤ decimalTimesRate ip fp rate := by
  rw [decimalTimesRate_eq]
  exact mul_nonneg (decimalValue_nonneg ip fp) (by positivity)

/-! ## Deduplication semantics

The two `drop_duplicates` policies are characterized through the rows they
retain for each key: keep-first retains the head of each key class,
keep-last retains its last element, both at their original positions. -/

theorem dedupKeepFirstGo_filter {α κ : Type} [DecidableEq κ] (key : α → κ)
    (k : κ) :
    ∀ (l : List α) (seen : List κ),
      (dedupKeepFirstGo key seen l).filter (fun r => decide (key r = k)) =
        if k ∈ seen then []
        else ((l.filter (fun r => decide (key r = k))).head?).toList := by
  intro l
  induction l with
  | nil => intro seen; simp [dedupKeepFirstGo]
  | cons x xs ih =>
      intro seen
      by_cases hseen : key x ∈ seen
      · rw [dedupKeepFirstGo, if_pos hseen, ih seen]
        by_cases hk : k ∈ seen
        · rw [if_pos hk, if_pos hk]
        · have hxk : ¬(key x = k) := fun h => hk (h ▸ hseen)
          rw [if_neg hk, if_neg hk, List.filter_cons, if_neg (by simp [hxk])]
      · rw [dedupKeepFirstGo, if_neg hseen]
        by_cases hxk : key x = k
        · have hks : ¬(k ∈ seen) := fun h => hseen (hxk ▸ h)
          have hmem : k ∈ key x :: seen := by
            rw [hxk]; exact List.mem_cons_self _ _
          rw [List.filter_cons, if_pos (by simp [hxk]), ih (key x :: seen),
            if_pos hmem, if_neg hks, List.filter_cons, if_pos (by simp [hxk])]
          rfl
        · by_cases hk : k ∈ seen
          · rw [List.filter_cons, if_neg (by simp [hxk]), ih (key x :: seen),
              if_pos (List.mem_cons_of_mem _ hk), if_pos hk]
          · have hnotc : ¬(k ∈ key x :: seen) := by
              intro h
              rcases List.mem_cons.mp h with h | h
              · exact hxk h.symm
              · exact hk h
            rw [List.filter_cons, if_neg (by simp [hxk]), ih (key x :: seen),
              if_neg hnotc, if_neg hk, List.filter_cons,
              if_neg (by simp [hxk])]

theorem dedupKeepFirst_filter {α κ : Type} [DecidableEq κ] (key : α → κ)
    (k : κ) (l : List α) :
    (dedupKeepFirst key l).filter (fun r => decide (key r = k)) =
      ((l.filter (fun r => decide (key r = k))).head?).toList := by
  rw [dedupKeepFirst, dedupKeepFirstGo_filter]
  simp

theorem dedupKeepLast_filter {α κ : Type} [DecidableEq κ] (key : α → κ)
    (k : κ) :
    ∀ l : List α,
      (dedupKeepLast key l).filter (fun r => decide (key r = k)) =
        ((l.filter (fun r => decide (key r = k))).getLast?).toList := by
  intro l
  induction l with
  | nil => simp [dedupKeepLast]
  | cons x xs ih =>
      by_cases hdup : xs.any (fun y => decide (key y = key x)) = true
      · rw [dedupKeepLast, if_pos hdup, ih]
        by_cases hxk : key x = k
        · obtain ⟨y, hy, hky⟩ := List.any_eq_true.mp hdup
          have hky' : key y = k := hxk ▸ of_decide_eq_true hky
          have hymem : y ∈ xs.filter (fun r => decide (key r = k)) :=
            List.mem_filter.mpr ⟨hy, decide_eq_true hky'⟩
          rw [List.filter_cons, if_pos (by simp [hxk])]
          cases hfl : xs.filter (fun r => decide (key r = k)) with
          | nil => rw [hfl] at hymem; cases hymem
          | cons z zs => rw [List.getLast?_cons_cons]
        · rw [List.filter_cons, if_neg (by simp [hxk])]
      · rw [dedupKeepLast, if_neg hdup]
        by_cases hxk : key x = k
        · have hnone : xs.filter (fun r => decide (key r = k)) = [] := by
            rw [List.filter_eq_nil_iff]
            intro a ha hak
            exact hdup (List.any_eq_true.mpr
              ⟨a, ha, decide_eq_true (by rw [of_decide_eq_true hak, hxk])⟩)
          rw [List.filter_cons, if_pos (by simp [hxk]), ih, hnone,
            List.filter_cons, if_pos (by simp [hxk]), hnone]
          simp
        · rw [List.filter_cons, if_neg (by simp [hxk]), ih,
            List.filter_cons, if_neg (by simp [hxk])]

theorem dedupKeepFirstGo_subset {α κ : Type} [DecidableEq κ] (key : α → κ)
    (a : α) :
    ∀ (l : List α) (seen : List κ), a ∈ dedupKeepFirstGo key seen l → a ∈ l := by
  intro l
  induction l with
  | nil => intro seen h; simp [dedupKeepFirstGo] at h
  | cons x xs ih =>
      intro seen h
      rw [dedupKeepFirstGo] at h
      by_cases hseen : key x ∈ seen
      · rw [if_pos hseen] at h
        exact List.mem_cons_of_mem _ (ih seen h)
      · rw [if_neg hseen] at h
        rcases List.mem_cons.mp h with h | h
        · exact h ▸ List.mem_cons_self _ _
        · exact List.mem_cons_of_mem _ (ih (key x :: seen) h)

theorem dedupKeepFirst_subset {α κ : Type} [DecidableEq κ] (key : α → κ)
    (a : α) (l : List α) (h : a ∈ dedupKeepFirst key l) : a ∈ l :=
  dedupKeepFirstGo_subset key a l [] h

/-! ## Pagination semantics -/

theorem takeWhile_congr_local {α : Type} (f g : α → Bool) :
    ∀ l : List α, (∀ x ∈ l, f x = g x) → l.takeWhile f = l.takeWhile g := by
  intro l
  induction l with
  | nil => intro _; rfl
  | cons x xs ih =>
      intro h
      have hx := h x (List.mem_cons_self _ _)
      rw [List.takeWhile_cons, List.takeWhile_cons, ← hx]
      cases hfx : f x with
      | false => rfl
      | true =>
          simp only [if_pos rfl]
          rw [ih (fun y hy => h y (List.mem_cons_of_mem _ hy))]

theorem takeWhile_append_stop {α : Type} (f : α → Bool) :
    ∀ l1 l2 : List α, (∃ x ∈ l1, f x = false) →
      (l1 ++ l2).takeWhile f = l1.takeWhile f := by
  intro l1
  induction l1 with
  | nil => intro l2 h; rcases h with ⟨x, hx, _⟩; cases hx
  | cons a t ih =>
      intro l2 h
      rw [List.cons_append, List.takeWhile_cons, List.takeWhile_cons]
      cases hfa : f a with
      | false => rfl
      | true =>
          rcases h with ⟨x, hx, hfx⟩
          rcases List.mem_cons.mp hx with rfl | hxt
          · rw [hfa] at hfx; cases hfx
          · simp only [if_pos rfl]
            rw [ih l2 ⟨x, hxt, hfx⟩]

theorem mem_of_mem_takeWhile_local {α : Type} (f : α → Bool) (a : α) :
    ∀ l : List α, a ∈ l.takeWhile f → a ∈ l := by
  intro l
  induction l with
  | nil => intro h; cases h
  | cons x xs ih =>
      intro h
      rw [List.takeWhile_cons] at h
      cases hfx : f x with
      | false => rw [hfx] at h; cases h
      | true =>
          rw [hfx] at h
          simp only [if_pos rfl] at h
          rcases List.mem_cons.mp h with rfl | h
          · exact List.mem_cons_self _ _
          · exact List.mem_cons_of_mem _ (ih h)

/-- The pagination loop is the page-order concatenation of the records of
the pages before the first terminating page: a page is visited while it
does not terminate the loop, a visited page contributes `pageRecords`
(nothing on fetch failure), and the first terminating page cuts off
everything from itself on. -/
theorem extractLoop_eq (fetch : Nat → Option String)
    (parse : String → List ExtractedProduct) :
    ∀ pages : List Nat,
      extractLoop fetch parse pages =
        (pages.takeWhile (fun p => !(stopsAt fetch parse p))).flatMap
          (pageRecords fetch parse) := by
  intro pages
  induction pages with
  | nil => rfl
  | cons p rest ih =>
      cases hf : fetch p with
      | none =>
          simp [extractLoop, hf, stopsAt, pageRecords, ih, List.takeWhile_cons]
      | some html =>
          by_cases h1 : html = ""
          · subst h1
            simp [extractLoop, hf, stopsAt, pageRecords, ih, List.takeWhile_cons]
          · by_cases h2 : parse html = []
            · simp [extractLoop, hf, stopsAt, pageRecords, h1, h2,
                List.takeWhile_cons]
            · simp [extractLoop, hf, stopsAt, pageRecords, h1, h2, ih,
                List.takeWhile_cons]

/-- Two fetch collaborators that agree on all pages up to a terminating
page `k` drive the extraction to the same output: pages past the first
empty page are never consulted. -/
theorem extract_fetch_agree (fetch fetch' : Nat → Option String)
    (parse : String → List ExtractedProduct) (n k : Nat)
    (h1 : 1 ≤ k) (hkn : k ≤ n)
    (hagree : ∀ p, p ≤ k → fetch p = fetch' p)
    (hstop : stopsAt fetch parse k = true) :
    extract_fashion_data fetch parse n = extract_fashion_data fetch' parse n := by
  have hsplit : List.range' 1 n = List.range' 1 k ++ List.range' (1 + k) (n - k) := by
    rw [List.range'_append_1]
    congr 1
    omega
  have hmemk : k ∈ List.range' 1 k := by
    rw [List.mem_range']
    exact ⟨k - 1, by omega, by omega⟩
  have hbound : ∀ p ∈ List.range' 1 k, p ≤ k := by
    intro p hp
    rw [List.mem_range'] at hp
    omega
  have hstop' : stopsAt fetch' parse k = true := by
    rw [stopsAt, ← hagree k (le_refl k)]
    exact hstop
  have hcut : (List.range' 1 n).takeWhile (fun p => !(stopsAt fetch parse p)) =
      (List.range' 1 k).takeWhile (fun p => !(stopsAt fetch parse p)) := by
    rw [hsplit]
    exact takeWhile_append_stop _ _ _ ⟨k, hmemk, by rw [hstop]; rfl⟩
  have hcut' : (List.range' 1 n).takeWhile (fun p => !(stopsAt fetch' parse p)) =
      (List.range' 1 k).takeWhile (fun p => !(stopsAt fetch' parse p)) := by
    rw [hsplit]
    exact takeWhile_append_stop _ _ _ ⟨k, hmemk, by rw [hstop']; rfl⟩
  have hsame : ∀ p ∈ List.range' 1 k,
      (!(stopsAt fetch parse p)) = (!(stopsAt fetch' parse p)) := by
    intro p hp
    rw [stopsAt, stopsAt, hagree p (hbound p hp)]
  rw [extract_fashion_data, extract_fashion_data, extractLoop_eq, extractLoop_eq,
    hcut, hcut', takeWhile_congr_local _ _ _ hsame]
  apply List.flatMap_congr
  intro p hp
  have hpk : p ≤ k :=
    hbound p (mem_of_mem_takeWhile_local _ _ _ hp)
  rw [pageRecords, pageRecords, hagree p hpk]

/-! ## Descriptor-scan semantics -/

theorem descStep_no_match (st : DescFields) (line : String)
    (h : codeLineMatch (pyStrip line) = false) : descStep st line = st := by
  rw [codeLineMatch] at h
  simp only [Bool.or_eq_false_iff] at h
  obtain ⟨⟨⟨h1, h2⟩, h3⟩, h4⟩ := h
  rw [descStep]
  simp only [h1, h2, h3, h4]
  rfl

/-- Dropping a line that matches none of the tested conditions from the
descriptor block does not change the parsed record. -/
theorem parseCard_skip_line (ts : String) (t p : Option String)
    (pre post : List String) (line : String)
    (h : codeLineMatch (pyStrip line) = false) :
    parseCard ts ⟨t, p, pre ++ line :: post⟩ = parseCard ts ⟨t, p, pre ++ post⟩ := by
  rw [parseCard, parseCard]
  have : (pre ++ line :: post).foldl descStep descInit =
      (pre ++ post).foldl descStep descInit := by
    rw [List.foldl_append, List.foldl_append, List.foldl_cons,
      descStep_no_match _ _ h]
  rw [this]

theorem descStep_rating_invariant (st : DescFields) (line : String)
    (h : hitsRating line = false) : (descStep st line).rating = st.rating := by
  rw [hitsRating] at h
  simp [descStep, h, apply_ite DescFields.rating]

theorem descStep_colors_invariant (st : DescFields) (line : String)
    (h : hitsColors line = false) : (descStep st line).colors = st.colors := by
  by_cases hr : pyStartsWith (pyStrip line) "Rating:"
  · simp [descStep, hr]
  · have hc : pyContains (pyStrip line) "Colors" = false := by
      rw [hitsColors, hitsRating] at h
      simpa [hr] using h
    simp [descStep, hr, hc, apply_ite DescFields.colors]

theorem descStep_size_invariant (st : DescFields) (line : String)
    (h : hitsSize line = false) : (descStep st line).size = st.size := by
  by_cases hr : pyStartsWith (pyStrip line) "Rating:"
  · simp [descStep, hr]
  · by_cases hc : pyContains (pyStrip line) "Colors"
    · simp [descStep, hr, hc]
    · have hs : pyStartsWith (pyStrip line) "Size:" = false := by
        rw [hitsSize, hitsRating] at h
        simpa [hr, hc] using h
      simp [descStep, hr, hc, hs, apply_ite DescFields.size]

theorem descStep_gender_invariant (st : DescFields) (line : String)
    (h : hitsGender line = false) : (descStep st line).gender = st.gender := by
  by_cases hr : pyStartsWith (pyStrip line) "Rating:"
  · simp [descStep, hr]
  · by_cases hc : pyContains (pyStrip line) "Colors"
    · simp [descStep, hr, hc]
    · by_cases hs : pyStartsWith (pyStrip line) "Size:"
      · simp [descStep, hr, hc, hs]
      · have hg : pyStartsWith (pyStrip line) "Gender:" = false := by
          rw [hitsGender, hitsRating] at h
          simpa [hr, hc, hs] using h
        simp [descStep, hr, hc, hs, hg]

theorem foldl_rating_invariant (lines : List String)
    (h : ∀ line ∈ lines, hitsRating line = false) :
    ∀ st : DescFields, (lines.foldl descStep st).rating = st.rating := by
  induction lines with
  | nil => intro st; rfl
  | cons l ls ih =>
      intro st
      rw [List.foldl_cons,
        ih (fun x hx => h x (List.mem_cons_of_mem _ hx)) (descStep st l),
        descStep_rating_invariant st l (h l (List.mem_cons_self _ _))]

theorem foldl_colors_invariant (lines : List String)
    (h : ∀ line ∈ lines, hitsColors line = false) :
    ∀ st : DescFields, (lines.foldl descStep st).colors = st.colors := by
  induction lines with
  | nil => intro st; rfl
  | cons l ls ih =>
      intro st
      rw [List.foldl_cons,
        ih (fun x hx => h x (List.mem_cons_of_mem _ hx)) (descStep st l),
        descStep_colors_invariant st l (h l (List.mem_cons_self _ _))]

theorem foldl_size_invariant (lines : List String)
    (h : ∀ line ∈ lines, hitsSize line = false) :
    ∀ st : DescFields, (lines.foldl descStep st).size = st.size := by
  induction lines with
  | nil => intro st; rfl
  | cons l ls ih =>
      intro st
      rw [List.foldl_cons,
        ih (fun x hx => h x (List.mem_cons_of_mem _ hx)) (descStep st l),
        descStep_size_invariant st l (h l (List.mem_cons_self _ _))]

theorem foldl_gender_invariant (lines : List String)
    (h : ∀ line ∈ lines, hitsGender line = false) :
    ∀ st : DescFields, (lines.foldl descStep st).gender = st.gender := by
  induction lines with
  | nil => intro st; rfl
  | cons l ls ih =>
      intro st
      rw [List.foldl_cons,
        ih (fun x hx => h x (List.mem_cons_of_mem _ hx)) (descStep st l),
        descStep_gender_invariant st l (h l (List.mem_cons_self _ _))]

/-! ## Claim theorems -/

/-- C1: `transform_fashion_data` performs exactly, and in this order:
normalize every record with the five field normalizers, drop invalid
titles, drop records with an absent critical field, drop records with
non-positive price, deduplicate on `(title, price, size, gender)` keeping
the first occurrence (characterized: for each key the retained row is the
head of that key's class), and re-index (the identity on the list model).
In particular two identical raw records with price `"$25.99"` validate to
exactly one record, the first one, with price `25.99 × 16000`. -/
theorem transform_pipeline_order :
    (∀ raw_data : List RawProduct,
      transform_fashion_data raw_data =
        dedupKeepFirst dedupKey
          ((((raw_data.map normalizeRecord).filter
              (fun r => is_valid_title r.title)).filter
              (fun r => noAbsentFields r)).filter
              (fun r => decide (0 < r.price)))) ∧
    (∀ (l : List CleanRecord) (kk : Option String × ℚ × Option String × Option String),
      (dedupKeepFirst dedupKey l).filter (fun r => decide (dedupKey r = kk)) =
        ((l.filter (fun r => decide (dedupKey r = kk))).head?).toList) ∧
    transform_fashion_data [sampleRaw, sampleRaw] = [sampleClean] ∧
    sampleClean.price = 25.99 * (USD_TO_IDR_RATE : ℚ) := by
  refine ⟨?_, ?_, ?_, ?_⟩
  · intro raw_data
    cases raw_data with
    | nil => rfl
    | cons x xs => rfl
  · intro l kk
    exact dedupKeepFirst_filter dedupKey kk l
  · decide
  · show (415840 : ℚ) = 25.99 * (USD_TO_IDR_RATE : ℚ)
    rw [USD_TO_IDR_RATE]
    norm_num

/-- C2: in append mode with existing data, the sink combines old then new
records and deduplicates on `(title, price, size, gender)` keeping the last
occurrence (characterized: for each key the retained row is the last of
that key's class); so when a new record collides with an existing one, the
new one is retained — the opposite of the validator's keep-first policy,
characterized alongside. -/
theorem append_keep_last :
    (∀ existing_df df : List CleanRecord,
      append_to_csv existing_df df = dedupKeepLast dedupKey (existing_df ++ df)) ∧
    (∀ (l : List CleanRecord) (kk : Option String × ℚ × Option String × Option String),
      (dedupKeepLast dedupKey l).filter (fun r => decide (dedupKey r = kk)) =
        ((l.filter (fun r => decide (dedupKey r = kk))).getLast?).toList) ∧
    (∀ (existing_df df : List CleanRecord)
        (kk : Option String × ℚ × Option String × Option String) (n : CleanRecord),
      (df.filter (fun r => decide (dedupKey r = kk))).getLast? = some n →
      (append_to_csv existing_df df).filter (fun r => decide (dedupKey r = kk)) = [n]) ∧
    (∀ (l : List CleanRecord) (kk : Option String × ℚ × Option String × Option String),
      (dedupKeepFirst dedupKey l).filter (fun r => decide (dedupKey r = kk)) =
        ((l.filter (fun r => decide (dedupKey r = kk))).head?).toList) := by
  refine ⟨fun _ _ => rfl, ?_, ?_, ?_⟩
  · intro l kk
    exact dedupKeepLast_filter dedupKey kk l
  · intro existing_df df kk n h
    rw [append_to_csv, dedupKeepLast_filter, List.filter_append,
      List.getLast?_append, h]
    rfl
  · intro l kk
    exact dedupKeepFirst_filter dedupKey kk l

/-- C2 witness: appending `collideNew` over the colliding `collideOld`
retains exactly `collideNew` for that key. -/
theorem append_keep_last_witness :
    (append_to_csv [collideOld] [collideNew]).filter
        (fun r => decide (dedupKey r = dedupKey collideNew)) = [collideNew] :=
  append_keep_last.2.2.1 [collideOld] [collideNew] (dedupKey collideNew)
    collideNew (by decide)

/-- C10: `clean_price` is total and never negative, so the validator's
price filter can only exclude records whose normalized price is exactly
zero. -/
theorem clean_price_total_nonneg :
    (∀ price_str : Option String, 0 ≤ clean_price price_str) ∧
    (∀ price_str : Option String,
      clean_price price_str ≤ 0 → clean_price price_str = 0) ∧
    (∀ (raw_data : List RawProduct) (r : CleanRecord),
      r ∈ raw_data.map normalizeRecord → ¬(0 < r.price) → r.price = 0) := by
  have hnn : ∀ price_str : Option String, 0 ≤ clean_price price_str := by
    intro price_str
    cases price_str with
    | none => exact le_refl 0
    | some s =>
        simp only [clean_price]
        split
        · exact le_refl 0
        · split
          · exact decimalTimesRate_nonneg _ _ _
          · exact le_refl 0
  refine ⟨hnn, fun o h => le_antisymm h (hnn o), ?_⟩
  intro raw_data r hr hp
  obtain ⟨x, _, rfl⟩ := List.mem_map.mp hr
  have h0 : (normalizeRecord x).price = clean_price x.price := rfl
  rw [h0]
  exact le_antisymm (not_lt.mp (h0 ▸ hp)) (hnn x.price)

/-- C10 witness: a price text with no numeric token normalizes to zero. -/
theorem clean_price_total_nonneg_witness :
    clean_price (some "no digits here") = 0 :=
  clean_price_total_nonneg.2.1 (some "no digits here") (by decide)

/-- C3: the pagination driver walks pages `1 .. max_pages` in order; a
failed fetch contributes nothing and iteration advances; the first
successfully fetched page parsing to zero records terminates the loop, and
the output is the page-and-card-order concatenation of the records of the
pages before it.  Pages past the stop are never consulted: any two fetch
collaborators agreeing up to a terminating page produce the same output.
Concretely, a ten-page run whose page 3 parses empty yields exactly the
records of pages 1 and 2. -/
theorem pagination_termination :
    (∀ (fetch : Nat → Option String) (parse : String → List ExtractedProduct)
        (max_pages : Nat),
      extract_fashion_data fetch parse max_pages =
        ((List.range' 1 max_pages).takeWhile
            (fun p => !(stopsAt fetch parse p))).flatMap
          (pageRecords fetch parse)) ∧
    (∀ (fetch fetch' : Nat → Option String)
        (parse : String → List ExtractedProduct) (n k : Nat),
      1 ≤ k → k ≤ n → (∀ p, p ≤ k → fetch p = fetch' p) →
      stopsAt fetch parse k = true →
      extract_fashion_data fetch parse n = extract_fashion_data fetch' parse n) ∧
    extract_fashion_data stopFetch stopParse 10 =
      stopParse "page one" ++ stopParse "page two" := by
  refine ⟨?_, ?_, ?_⟩
  · intro fetch parse max_pages
    exact extractLoop_eq fetch parse (List.range' 1 max_pages)
  · intro fetch fetch' parse n k h1 hkn hagree hstop
    exact extract_fetch_agree fetch fetch' parse n k h1 hkn hagree hstop
  · decide

/-- C3 witness: with page 3 parsing empty, cutting the fetch collaborator
off after page 3 does not change the ten-page output — pages 4–10 are
never fetched. -/
theorem pagination_termination_witness :
    extract_fashion_data stopFetch stopParse 10 =
      extract_fashion_data stopFetchCut stopParse 10 :=
  pagination_termination.2.1 stopFetch stopFetchCut stopParse 10 3
    (by decide) (by decide) (by decide) (by decide)

/-- C5: the card parser is total — one record per card — and every record
carries all seven keys: missing title and price elements are filled with
the sentinels `"Unknown"` and `"Price Unavailable"`, a missing descriptor
block leaves `"Not Rated"`, `"0"`, `"Unknown"`, `"Unknown"`, and the
timestamp is the caller-supplied run value on every record. -/
theorem parser_total_sentinels :
    ∀ (cards : List Card) (ts : String),
      (parse_product_data cards ts).length = cards.length ∧
      (∀ r ∈ parse_product_data cards ts, r.timestamp = ts) ∧
      (∀ card : Card, card.titleText = none → (parseCard ts card).title = "Unknown") ∧
      (∀ card : Card, card.priceText = none →
        (parseCard ts card).price = "Price Unavailable") ∧
      (∀ card : Card, card.detailTexts = [] →
        (parseCard ts card).rating = "Not Rated" ∧
        (parseCard ts card).colors = "0" ∧
        (parseCard ts card).size = "Unknown" ∧
        (parseCard ts card).gender = "Unknown") ∧
      (∀ card : Card, (∀ line ∈ card.detailTexts, hitsRating line = false) →
        (parseCard ts card).rating = "Not Rated") ∧
      (∀ card : Card, (∀ line ∈ card.detailTexts, hitsColors line = false) →
        (parseCard ts card).colors = "0") ∧
      (∀ card : Card, (∀ line ∈ card.detailTexts, hitsSize line = false) →
        (parseCard ts card).size = "Unknown") ∧
      (∀ card : Card, (∀ line ∈ card.detailTexts, hitsGender line = false) →
        (parseCard ts card).gender = "Unknown") := by
  intro cards ts
  refine ⟨?_, ?_, ?_, ?_, ?_, ?_, ?_, ?_, ?_⟩
  · simp [parse_product_data]
  · intro r hr
    obtain ⟨c, _, rfl⟩ := List.mem_map.mp hr
    rfl
  · intro card h
    simp [parseCard, h]
  · intro card h
    simp [parseCard, h]
  · intro card h
    refine ⟨?_, ?_, ?_, ?_⟩ <;> simp [parseCard, h, descInit]
  · intro card h
    have := foldl_rating_invariant card.detailTexts h descInit
    simpa [parseCard, descInit] using this
  · intro card h
    have := foldl_colors_invariant card.detailTexts h descInit
    simpa [parseCard, descInit] using this
  · intro card h
    have := foldl_size_invariant card.detailTexts h descInit
    simpa [parseCard, descInit] using this
  · intro card h
    have := foldl_gender_invariant card.detailTexts h descInit
    simpa [parseCard, descInit] using this

/-- C5 witness: the fully empty card parses to the all-sentinel record and
a singleton run carries the supplied timestamp. -/
theorem parser_total_sentinels_witness :
    (parseCard "TS" emptyCard).title = "Unknown" ∧
    (parseCard "TS" emptyCard).price = "Price Unavailable" ∧
    ((parseCard "TS" emptyCard).rating = "Not Rated" ∧
      (parseCard "TS" emptyCard).colors = "0" ∧
      (parseCard "TS" emptyCard).size = "Unknown" ∧
      (parseCard "TS" emptyCard).gender = "Unknown") ∧
    (parseCard "TS" emptyCard).timestamp = "TS" ∧
    (parseCard "TS"
        { titleText := some "Dress 2", priceText := some "$5.00",
          detailTexts := ["Rating: ⭐ 4.0 / 5"] }).colors = "0" :=
  ⟨(parser_total_sentinels [] "TS").2.2.1 emptyCard rfl,
    (parser_total_sentinels [] "TS").2.2.2.1 emptyCard rfl,
    (parser_total_sentinels [] "TS").2.2.2.2.1 emptyCard rfl,
    (parser_total_sentinels [emptyCard] "TS").2.1 (parseCard "TS" emptyCard)
      (by decide),
    (parser_total_sentinels [] "TS").2.2.2.2.2.2.1
      { titleText := some "Dress 2", priceText := some "$5.00",
        detailTexts := ["Rating: ⭐ 4.0 / 5"] }
      (by decide)⟩

/-- C6 counterexample: the line `"Only Colors here"` matches none of the
four patterns the specification lists (no `"Rating: "`, `"Size: "` or
`"Gender: "` start and no `"<integer> Colors"` match), yet adding it after
`"5 Colors"` changes the parsed colors field from `"5"` to `"0"` — the
code's `Colors`-substring branch resets the field when its regex fails. -/
theorem descriptor_scan_counterexample :
    specLineMatch "Only Colors here" = false ∧
    (parseCard "TS"
        { titleText := none, priceText := none,
          detailTexts := ["5 Colors", "Only Colors here"] }).colors = "0" ∧
    (parseCard "TS"
        { titleText := none, priceText := none,
          detailTexts := ["5 Colors"] }).colors = "5" := by
  decide

/-- C6 (amended): a descriptor line matching none of the conditions the
code actually tests — a `"Rating:"` start, a `"Colors"` substring, a
`"Size:"` start, a `"Gender:"` start, all on the stripped line — leaves
the four descriptor fields unchanged: the record parses the same with or
without that line. -/
theorem descriptor_scan_skip :
    ∀ (ts : String) (t p : Option String) (pre post : List String)
      (line : String),
      codeLineMatch (pyStrip line) = false →
      parseCard ts ⟨t, p, pre ++ line :: post⟩ = parseCard ts ⟨t, p, pre ++ post⟩ :=
  fun ts t p pre post line h => parseCard_skip_line ts t p pre post line h

/-- C6 witness: a free-text note line changes nothing. -/
theorem descriptor_scan_skip_witness :
    parseCard "TS" ⟨none, none, ["5 Colors", "random note"]⟩ =
      parseCard "TS" ⟨none, none, ["5 Colors"]⟩ :=
  descriptor_scan_skip "TS" none none ["5 Colors"] [] "random note" (by decide)

/-- C4 counterexample: `"Invalid 4/5"` contains the substring `"Invalid"`,
so the claim demands an absent rating, but the code only tests for the
substring `"Invalid Rating"` and proceeds to extract `4` from the score
pattern. -/
theorem clean_rating_invalid_counterexample :
    pyContains "Invalid 4/5" "Invalid" = true ∧
    clean_rating (some "Invalid 4/5") = some 4 := by
  decide

/-- C4 (amended): the rating normalizer returns absent for empty, absent
or exactly `"Not Rated"` input; returns absent whenever the text contains
the substring `"Invalid Rating"` (not bare `"Invalid"`); otherwise returns
the score of the first `"<score> / <scale>"` pattern, absent when there is
none; `"⭐ 4.5 / 5"` yields `4.5`. -/
theorem clean_rating_spec :
    clean_rating none = none ∧
    clean_rating (some "") = none ∧
    clean_rating (some "Not Rated") = none ∧
    (∀ s : String, pyContains s "Invalid Rating" = true →
      clean_rating (some s) = none) ∧
    (∀ s : String, ¬s = "" → ¬s = "Not Rated" →
      pyContains s "Invalid Rating" = false →
      clean_rating (some s) =
        (ratingScan s.data).map (fun q => decimalValue q.1 q.2)) ∧
    clean_rating (some "⭐ 4.5 / 5") = some 4.5 := by
  refine ⟨rfl, rfl, rfl, ?_, ?_, ?_⟩
  · intro s h
    by_cases h1 : s = ""
    · subst h1; rfl
    · by_cases h2 : s = "Not Rated"
      · subst h2; rfl
      · simp [clean_rating, h1, h2, h]
  · intro s h1 h2 h3
    simp only [clean_rating]
    rw [if_neg (by simp [h1, h2]), if_neg (by simp [h3])]
    cases hs : ratingScan s.data with
    | none => rfl
    | some q => cases q; rfl
  · have h : clean_rating (some "⭐ 4.5 / 5") = some (Rat.divInt 9 2) := by
      decide
    rw [h, Rat.divInt_eq_div]
    norm_num

/-- C4 witness: a text containing `"Invalid Rating"` is absent, and an
ordinary text is governed by the score-pattern scan. -/
theorem clean_rating_spec_witness :
    clean_rating (some "zz Invalid Rating 4/5") = none ∧
    clean_rating (some "plain text") =
      (ratingScan "plain text".data).map (fun q => decimalValue q.1 q.2) :=
  ⟨clean_rating_spec.2.2.2.1 "zz Invalid Rating 4/5" (by decide),
    clean_rating_spec.2.2.2.2.1 "plain text" (by decide) (by decide) (by decide)⟩

/-- C7: the price normalizer returns `0` for absent, empty or sentinel
input; otherwise it extracts the first numeric token of the comma-stripped
text and multiplies its exact decimal value by the conversion constant,
returning `0` when no token exists; `"$100.00"` gives `100 × 16000`. -/
theorem clean_price_spec :
    clean_price none = 0 ∧
    clean_price (some "") = 0 ∧
    clean_price (some "Price Unavailable") = 0 ∧
    (∀ s : String, ¬s = "" → ¬s = "Price Unavailable" →
      clean_price (some s) =
        (match priceScan (s.data.filter (fun c => c ≠ ',')) with
          | some (ip, fp) => decimalTimesRate ip fp USD_TO_IDR_RATE
          | none => 0)) ∧
    (∀ ip fp : List Char,
      decimalTimesRate ip fp USD_TO_IDR_RATE =
        ((digitsToNat ip : ℚ) + (digitsToNat fp : ℚ) / 10 ^ fp.length) *
          (USD_TO_IDR_RATE : ℚ)) ∧
    clean_price (some "$100.00") = 100 * (USD_TO_IDR_RATE : ℚ) := by
  refine ⟨rfl, rfl, rfl, ?_, ?_, ?_⟩
  · intro s h1 h2
    simp [clean_price, h1, h2]
  · intro ip fp
    rw [decimalTimesRate_eq, decimalValue_eq]
  · have h : clean_price (some "$100.00") = 1600000 := by decide
    rw [h, USD_TO_IDR_RATE]
    norm_num

/-- C7 witness: a nonempty non-sentinel input is governed by the token
scan. -/
theorem clean_price_spec_witness :
    clean_price (some "7 dollars") =
      (match priceScan ("7 dollars".data.filter (fun c => c ≠ ',')) with
        | some (ip, fp) => decimalTimesRate ip fp USD_TO_IDR_RATE
        | none => 0) :=
  clean_price_spec.2.2.2.1 "7 dollars" (by decide) (by decide)

/-- C8: the colors normalizer is absent on absent or empty input and
otherwise is Python's integer parse of the text; `"3"` gives `3`, `"0"`
gives the present value `0`, `"abc"` and `""` give absent. -/
theorem clean_colors_spec :
    clean_colors none = none ∧
    clean_colors (some "") = none ∧
    (∀ s : String, ¬s = "" → clean_colors (some s) = pyIntParse s) ∧
    clean_colors (some "3") = some 3 ∧
    clean_colors (some "0") = some 0 ∧
    clean_colors (some "abc") = none := by
  refine ⟨rfl, rfl, ?_, by decide, by decide, by decide⟩
  intro s h
  simp [clean_colors, h]

/-- C8 witness: a nonempty input is governed by the integer parse. -/
theorem clean_colors_spec_witness :
    clean_colors (some "42") = pyIntParse "42" :=
  clean_colors_spec.2.2.1 "42" (by decide)

/-- C9: every record surviving validation has no absent critical field and
a strictly positive price; a raw record that is sentinel in every field but
the title is excluded entirely. -/
theorem validated_invariant :
    (∀ (raw_data : List RawProduct) (r : CleanRecord),
      r ∈ transform_fashion_data raw_data →
      r.title ≠ none ∧ r.rating ≠ none ∧ r.colors ≠ none ∧
        r.size ≠ none ∧ r.gender ≠ none ∧ 0 < r.price) ∧
    (∀ ts : Option String, transform_fashion_data [sentinelTitled ts] = []) := by
  constructor
  · intro raw_data r hr
    by_cases hnil : raw_data = []
    · subst hnil
      simp [transform_fashion_data] at hr
    · rw [transform_fashion_data, if_neg hnil] at hr
      have h4 := dedupKeepFirst_subset dedupKey r _ hr
      obtain ⟨h3, hp⟩ := List.mem_filter.mp h4
      obtain ⟨h2, hno⟩ := List.mem_filter.mp h3
      have hpos : 0 < r.price := of_decide_eq_true hp
      simp only [noAbsentFields, Bool.and_eq_true] at hno
      obtain ⟨⟨⟨⟨ht, hra⟩, hc⟩, hs⟩, hg⟩ := hno
      exact ⟨Option.isSome_iff_ne_none.mp ht, Option.isSome_iff_ne_none.mp hra,
        Option.isSome_iff_ne_none.mp hc, Option.isSome_iff_ne_none.mp hs,
        Option.isSome_iff_ne_none.mp hg, hpos⟩
  · intro ts
    rfl

/-- C9 witness: the validated sample record is fully populated with
positive price. -/
theorem validated_invariant_witness :
    sampleClean.title ≠ none ∧ sampleClean.rating ≠ none ∧
      sampleClean.colors ≠ none ∧ sampleClean.size ≠ none ∧
      sampleClean.gender ≠ none ∧ 0 < sampleClean.price :=
  validated_invariant.1 [sampleRaw] sampleClean (by decide)

end FashionStudio
